import Mathlib

/-!
Shallow embedding of `fuzzers/005-tilegrid/generate.py`: the tile-grid
segment construction, base-address propagation (lateral and vertical) and
bit-geometry annotation, together with theorems checking the specified
properties against these definitions.

Python dictionaries are modelled as insertion-ordered association lists
(updates keep the original key position, new keys are appended), Python
integers as `Int`, and any `assert` failure / `KeyError` / `ValueError` as
`none` in an `Option`-valued result.
-/

set_option autoImplicit false

namespace Prjxray

/-! ### Association lists standing for Python dicts -/

/-- Lookup in an insertion-ordered association list (Python `d[k]` / `d.get(k)`). -/
def alookup {α : Type} : List (String × α) → String → Option α
  | [], _ => none
  | (k', v) :: t, k => if k' = k then some v else alookup t k

/-- Update-or-append (Python `d[k] = v`): an existing key keeps its position,
a new key is appended, matching dict insertion order. -/
def aset {α : Type} : List (String × α) → String → α → List (String × α)
  | [], k, v => [(k, v)]
  | (k', v') :: t, k, v => if k' = k then (k, v) :: t else (k', v') :: aset t k v

/-! ### Python string ordering and lowercasing

Lean's built-in `String` order does not reduce in the kernel, so the
code-point lexicographic order used by Python's `sorted` is defined here
directly on the character lists. -/

/-- Code-point lexicographic `≤` on character lists, as Python compares strings. -/
def charsLe : List Char → List Char → Bool
  | [], _ => true
  | _ :: _, [] => false
  | a :: as, b :: bs =>
    if a.toNat < b.toNat then true
    else if b.toNat < a.toNat then false
    else charsLe as bs

/-- Python string `≤` (code-point lexicographic). -/
def pyLe (a b : String) : Bool := charsLe a.data b.data

/-- The ordering relation used to model Python's `sorted` on strings. -/
def StrLe : String → String → Prop := fun a b => pyLe a b = true

instance : DecidableRel StrLe := fun a b =>
  inferInstanceAs (Decidable (pyLe a b = true))

theorem charsLe_trans : ∀ {a b c : List Char},
    charsLe a b = true → charsLe b c = true → charsLe a c = true := by
  intro a
  induction a with
  | nil => intro b c _ _; rfl
  | cons x xs ih =>
    intro b c hab hbc
    cases b with
    | nil => simp [charsLe] at hab
    | cons y ys =>
      cases c with
      | nil => simp [charsLe] at hbc
      | cons z zs =>
        simp only [charsLe] at hab hbc ⊢
        rcases Nat.lt_trichotomy x.toNat y.toNat with h1 | h1 | h1
        · rcases Nat.lt_trichotomy y.toNat z.toNat with h2 | h2 | h2
          · simp [show x.toNat < z.toNat by omega]
          · simp [show x.toNat < z.toNat by omega]
          · simp [show ¬ y.toNat < z.toNat by omega,
              show z.toNat < y.toNat by omega] at hbc
        · rcases Nat.lt_trichotomy y.toNat z.toNat with h2 | h2 | h2
          · simp [show x.toNat < z.toNat by omega]
          · simp only [show ¬ x.toNat < y.toNat by omega,
              show ¬ y.toNat < x.toNat by omega, if_false, if_neg,
              not_false_eq_true] at hab
            simp only [show ¬ y.toNat < z.toNat by omega,
              show ¬ z.toNat < y.toNat by omega, if_false, if_neg,
              not_false_eq_true] at hbc
            simp only [show ¬ x.toNat < z.toNat by omega,
              show ¬ z.toNat < x.toNat by omega, if_false, if_neg,
              not_false_eq_true]
            exact ih hab hbc
          · simp [show ¬ y.toNat < z.toNat by omega,
              show z.toNat < y.toNat by omega] at hbc
        · simp [show ¬ x.toNat < y.toNat by omega,
            show y.toNat < x.toNat by omega] at hab

theorem charsLe_total : ∀ (a b : List Char), charsLe a b = true ∨ charsLe b a = true := by
  intro a
  induction a with
  | nil => intro b; left; rfl
  | cons x xs ih =>
    intro b
    cases b with
    | nil => right; rfl
    | cons y ys =>
      simp only [charsLe]
      rcases Nat.lt_trichotomy x.toNat y.toNat with h | h | h
      · left; simp [h]
      · have hxy : ¬ x.toNat < y.toNat := by omega
        have hyx : ¬ y.toNat < x.toNat := by omega
        rcases ih ys with hl | hl
        · left; simp [hxy, hyx, hl]
        · right; simp [hxy, hyx, hl]
      · right; simp [h]

instance : IsTrans String StrLe :=
  ⟨fun _ _ _ hab hbc => charsLe_trans hab hbc⟩

instance : IsTotal String StrLe :=
  ⟨fun a b => charsLe_total a.data b.data⟩

/-- `sorted(keys)` for a list of strings. -/
def sortStrings (l : List String) : List String := List.insertionSort StrLe l

/-- Ordering of `dict.items()` tuples: Python compares the (distinct) keys first. -/
def KeyLe {α : Type} : (String × α) → (String × α) → Prop := fun x y => StrLe x.1 y.1

instance {α : Type} : DecidableRel (@KeyLe α) := fun x y =>
  inferInstanceAs (Decidable (StrLe x.1 y.1))

instance {α : Type} : IsTrans (String × α) KeyLe :=
  ⟨fun _ _ _ hab hbc => charsLe_trans hab hbc⟩

instance {α : Type} : IsTotal (String × α) KeyLe :=
  ⟨fun a b => charsLe_total a.1.data b.1.data⟩

/-- `sorted(d.items())` for an association list. -/
def sortByKey {α : Type} (l : List (String × α)) : List (String × α) :=
  List.insertionSort KeyLe l

/-- Python `str.lower()` (ASCII, as used on tile types). -/
def pyLower (s : String) : String := String.mk (s.data.map Char.toLower)

/-! ### Block-type classification (source: `block_type_i2s`, `addr2btype`) -/

/-- The `block_type_i2s` dict: codes 0, 1, 2 are named; anything else is a
`KeyError` (modelled as `none`). -/
def block_type_i2s (i : Int) : Option String :=
  if i = 0 then some "CLB_IO_CLK"
  else if i = 1 then some "BLOCK_RAM"
  else if i = 2 then some "CFG_CLB"
  else none

/-- `addr2btype`: `(base_addr >> 23) & 0x7` looked up in `block_type_i2s`.
Python `>>` is a floor shift and `& 7` of an arbitrary int is `emod 8`. -/
def addr2btype (base_addr : Int) : Option String :=
  block_type_i2s ((base_addr.fdiv (2 ^ 23)).emod 8)

/-! ### Tile-type helpers (source: `nolr`, BRAM/DSP name splicing) -/

/-- `nolr`: remove a trailing `_L` or `_R` from a tile type, if present. -/
def nolr (tile_type : String) : String :=
  let sfx := String.mk (tile_type.data.drop (tile_type.data.length - 2))
  if sfx = "_L" ∨ sfx = "_R" then String.mk (tile_type.data.take (tile_type.data.length - 2))
  else tile_type

def replace_first_underscore_aux (new : List Char) : List Char → List Char
  | [] => []
  | c :: cs => if c = '_' then new ++ cs else c :: replace_first_underscore_aux new cs

/-- Python `s.replace("_", new, 1)`: replace only the first underscore. -/
def replace_first_underscore (s : String) (new : String) : String :=
  String.mk (replace_first_underscore_aux new.data s.data)

/-! ### Hex formatting (source: `'0x%08X' % baseaddr` in `add_tile_bits`) -/

def hexDigit (n : Nat) : Char :=
  if n < 10 then Char.ofNat (48 + n) else Char.ofNat (55 + n)

def hexAux : Nat → Nat → List Char
  | 0, _ => []
  | fuel + 1, n => if n = 0 then [] else hexAux fuel (n / 16) ++ [hexDigit (n % 16)]

/-- Uppercase hex digits of `n` (no prefix), as Python `'%X'`. -/
def natHexUpper (n : Nat) : String :=
  if n = 0 then "0" else String.mk (hexAux 16 n)

/-- Zero-pad on the left to width `w`. -/
def zpad (s : String) (w : Nat) : String :=
  String.mk (List.replicate (w - s.data.length) '0') ++ s

/-- Python `'0x%08X' % n` (the sign of a negative value sits inside the
zero-padded width, as CPython formats it). -/
def hex8 (n : Int) : String :=
  if 0 ≤ n then "0x" ++ zpad (natHexUpper n.toNat) 8
  else "0x-" ++ zpad (natHexUpper (-n).toNat) 7

/-! ### Data model -/

/-- One `bits` entry attached to a tile by `add_tile_bits`. -/
structure BitsRec where
  baseaddr : String
  offset : Int
  height : Nat
  deriving DecidableEq

/-- A tile record of the `database` dict: type, grid coordinate, the optional
owning-segment back-reference and the optional `bits` mapping (block type →
entry; an absent `bits` key and an empty mapping are indistinguishable to the
code, so both are the empty list). Sites are dropped: after
`make_tile_baseaddrs` the code never reads them. -/
structure TileRec where
  ttype : String
  gridX : Int
  gridY : Int
  segment : Option String := none
  bits : List (String × BitsRec) := []
  deriving DecidableEq

/-- A segment's `baseaddr` mapping: block type → `[framebase, wordbase]`. -/
def BaseAddrs : Type := List (String × (Int × Int))

instance : DecidableEq BaseAddrs := inferInstanceAs (DecidableEq (List (String × (Int × Int))))

/-- A segment record. `baseaddr = none` models the *absence* of the
`"baseaddr"` key (the vertical pass and `add_bits` distinguish an absent key
from an empty dict, so the key's presence is tracked exactly). -/
structure Segment where
  tiles : List String
  segtype : String
  frames : Nat
  words : Nat
  baseaddr : Option BaseAddrs := none
  deriving DecidableEq

/-- The mutable state threaded through the pipeline: the tile `database` and
the `segments` dict. -/
structure St where
  database : List (String × TileRec)
  segments : List (String × Segment)
  deriving DecidableEq

/-- `make_tiles_by_grid`: look up a tile name by grid coordinate; a later
tile with the same coordinate overwrites an earlier one, as in a dict build. -/
def make_tiles_by_grid (tiles : List (String × TileRec)) : Int → Int → Option String :=
  fun x y =>
    (tiles.reverse.find? (fun p => p.2.gridX = x ∧ p.2.gridY = y)).map (fun p => p.1)

/-! ### Segment construction (source: `make_segments` and its local helpers) -/

/-- `if baseaddr:` — Python truthiness of the optional dict argument of
`add_segment`: both `None` and an empty dict are falsy. -/
def truthy (b : Option BaseAddrs) : Option BaseAddrs :=
  match b with
  | none => none
  | some l => if l.isEmpty then none else some l

/-- The `database[tile_name]["segment"] = name` loop of `add_segment`;
a tile name missing from the database is a `KeyError`. -/
def set_tile_segments (db : List (String × TileRec)) (tiles : List String) (name : String) :
    Option (List (String × TileRec)) :=
  match tiles with
  | [] => some db
  | t :: ts =>
    match alookup db t with
    | none => none
    | some r => set_tile_segments (aset db t { r with segment := some name }) ts name

/-- `add_segment`: asserts the name is fresh, records the segment, and points
every member tile's `segment` field at it. -/
def add_segment (st : St) (name : String) (tiles : List String) (segtype : String)
    (frames words : Nat) (baseaddr : Option BaseAddrs) : Option St :=
  if (alookup st.segments name).isSome then none
  else
    match set_tile_segments st.database tiles name with
    | none => none
    | some db' =>
      some { database := db',
             segments := st.segments ++
               [(name, { tiles := tiles, segtype := segtype, frames := frames,
                         words := words, baseaddr := truthy baseaddr })] }

/-- `process_clb`: one segment of the tile plus the interconnect tile at
`x+1` (for `CLBLL_L`/`CLBLM_L`) or `x-1` (otherwise); `frames=36, words=2`;
seeded from `tile_baseaddrs`. -/
def process_clb (tbg : Int → Int → Option String) (tba : String → Option BaseAddrs)
    (st : St) (tile_name tile_type : String) (grid_x grid_y : Int) : Option St :=
  match (if tile_type = "CLBLL_L" ∨ tile_type = "CLBLM_L"
         then tbg (grid_x + 1) grid_y else tbg (grid_x - 1) grid_y) with
  | none => none
  | some int_tile_name =>
    add_segment st ("SEG_" ++ tile_name) [tile_name, int_tile_name]
      (pyLower tile_type) 36 2 (tba tile_name)

/-- `process_hclk`: a one-tile segment, `frames=26, words=1`, never seeded. -/
def process_hclk (st : St) (tile_name tile_type : String) : Option St :=
  add_segment st ("SEG_" ++ tile_name) [tile_name] (pyLower tile_type) 26 1 none

/-- One `k` iteration of `process_bram_dsp`. -/
def bram_dsp_step (tbg : Int → Int → Option String) (tba : String → Option BaseAddrs)
    (tile_name tile_type : String) (grid_x grid_y : Int) (st : St) (k : Nat) : Option St :=
  match (if tile_type = "BRAM_L" ∨ tile_type = "DSP_L" then
           match tbg (grid_x + 1) (grid_y - k), tbg (grid_x + 2) (grid_y - k) with
           | some i, some j => some (some (i, j))
           | _, _ => none
         else if tile_type = "BRAM_R" ∨ tile_type = "DSP_R" then
           match tbg (grid_x - 1) (grid_y - k), tbg (grid_x - 2) (grid_y - k) with
           | some i, some j => some (some (i, j))
           | _, _ => none
         else some none) with
  | none => none
  | some none => none
  | some (some (interface_tile_name, int_tile_name)) =>
    let tiles := if k = 0 then [tile_name, interface_tile_name, int_tile_name]
                 else [interface_tile_name, int_tile_name]
    let baseaddr := if k = 0 then tba tile_name else none
    add_segment st ("SEG_" ++ replace_first_underscore tile_name (toString k ++ "_"))
      tiles (replace_first_underscore (pyLower tile_type) (toString k ++ "_"))
      28 2 baseaddr

/-- `process_bram_dsp`: five segments, `k = 0..4`. -/
def process_bram_dsp (tbg : Int → Int → Option String) (tba : String → Option BaseAddrs)
    (st : St) (tile_name tile_type : String) (grid_x grid_y : Int) : Option St :=
  (List.range 5).foldlM (bram_dsp_step tbg tba tile_name tile_type grid_x grid_y) st

/-- The per-tile dispatch of `make_segments` on `nolr(tile_type)`. -/
def process_tile (tbg : Int → Int → Option String) (tba : String → Option BaseAddrs)
    (st : St) (tile_name tile_type : String) (grid_x grid_y : Int) : Option St :=
  if nolr tile_type = "CLBLL" ∨ nolr tile_type = "CLBLM" then
    process_clb tbg tba st tile_name tile_type grid_x grid_y
  else if nolr tile_type = "HCLK" then
    process_hclk st tile_name tile_type
  else if nolr tile_type = "BRAM" ∨ nolr tile_type = "DSP" then
    process_bram_dsp tbg tba st tile_name tile_type grid_x grid_y
  else some st

/-- `make_segments`: fold the dispatch over the database items (the loop reads
only the immutable `type`/`grid_x`/`grid_y` fields, so iterating the initial
list is exact), starting from an empty segments dict. -/
def make_segments (tbg : Int → Int → Option String) (tba : String → Option BaseAddrs)
    (db0 : List (String × TileRec)) : Option St :=
  db0.foldlM (fun st p => process_tile tbg tba st p.1 p.2.ttype p.2.gridX p.2.gridY)
    { database := db0, segments := [] }

/-! ### Lateral propagation (source: `get_inttile`, `seg_base_addr_lr_INT`) -/

/-- `get_inttile`: the unique member tile of type `INT_L`/`INT_R`; a member
missing from the database is a `KeyError`, zero or several interconnect tiles
fail the `assert len(inttiles) == 1`. -/
def get_inttile (database : List (String × TileRec)) (segment : Segment) : Option String :=
  match segment.tiles.mapM (fun t => (alookup database t).map (fun r => (t, r.ttype))) with
  | none => none
  | some pairs =>
    match pairs.filter (fun p => p.2 = "INT_L" ∨ p.2 = "INT_R") with
    | [p] => some p.1
    | _ => none

/-- The body of the lateral pass for one `(block_type, [framebase, wordbase])`
item of one source segment (the part of `seg_base_addr_lr_INT` inside the
inner `for`). -/
def lr_entry (tbg : Int → Int → Option String) (st : St) (segment : Segment)
    (block_type : String) (framebase wordbase : Int) : Option St :=
  if block_type ≠ "CLB_IO_CLK" then some st
  else
    match get_inttile st.database segment with
    | none => none
    | some inttile =>
      match alookup st.database inttile with
      | none => none
      | some intrec =>
        match (if intrec.ttype = "INT_L" then some (intrec.gridX + 1, framebase + 0x80)
               else if intrec.ttype = "INT_R" then some (intrec.gridX - 1, framebase - 0x80)
               else none) with
        | none => none
        | some (grid_x', framebase') =>
          match tbg grid_x' intrec.gridY with
          | none => some st
          | some tile =>
            match alookup st.database tile with
            | none => none
            | some trec =>
              if intrec.ttype = "INT_L" ∧ ¬ trec.ttype = "INT_R" then none
              else if intrec.ttype = "INT_R" ∧ ¬ trec.ttype = "INT_L" then none
              else
                match trec.segment with
                | none => none
                | some seg =>
                  match alookup st.segments seg with
                  | none => none
                  | some dseg =>
                    let bas := dseg.baseaddr.getD []
                    match alookup bas block_type with
                    | some v => if v = (framebase', wordbase) then some st else none
                    | none =>
                      let bas' := some (aset bas block_type (framebase', wordbase))
                      let dseg' : Segment := { dseg with baseaddr := bas' }
                      some { st with segments := aset st.segments seg dseg' }

/-- `seg_base_addr_lr_INT`: over segment names in sorted order, each segment's
(snapshot of) sorted `baseaddr` items is pushed through `lr_entry`. -/
def seg_base_addr_lr_INT (tbg : Int → Int → Option String) (st : St) : Option St :=
  (sortStrings (st.segments.map (fun p => p.1))).foldlM
    (fun st1 segment_name =>
      match alookup st1.segments segment_name with
      | none => none
      | some segment =>
        match segment.baseaddr with
        | none => some st1
        | some bas =>
          if bas.isEmpty then some st1
          else (sortByKey bas).foldlM
            (fun s e => lr_entry tbg s segment e.1 e.2.1 e.2.2) st1) st

/-! ### Vertical propagation (source: `seg_base_addr_up_INT`) -/

/-- The word-offset stepping rule of the vertical walk: `+1` when the current
value is 50, `+2` otherwise. -/
def up_step (wordbase : Int) : Int :=
  if wordbase = 50 then wordbase + 1 else wordbase + 2

/-- `segments[dst].setdefault("baseaddr", {})[block_type] = [framebase, wordbase]`. -/
def seg_write (st : St) (dst : String) (dseg : Segment) (block_type : String)
    (v : Int × Int) : St :=
  let bas' := some (aset (dseg.baseaddr.getD []) block_type v)
  let dseg' : Segment := { dseg with baseaddr := bas' }
  { st with segments := aset st.segments dst dseg' }

/-- The `for i in range(50)` walk of `seg_base_addr_up_INT`: `n` remaining
steps, descending one grid row per step; the destination coordinate and tile
lookups and the destination's `segment` field are unchecked (`KeyError` on
failure), and the write overwrites unconditionally. -/
def up_walk (tbg : Int → Int → Option String) (block_type : String) (framebase : Int)
    (grid_x : Int) : St → Int → Int → Nat → Option St
  | st, _, _, 0 => some st
  | st, grid_y, wordbase, n + 1 =>
    match tbg grid_x (grid_y - 1) with
    | none => none
    | some tn =>
      match alookup st.database tn with
      | none => none
      | some dst_tile =>
        match dst_tile.segment with
        | none => none
        | some dst_segment_name =>
          match alookup st.segments dst_segment_name with
          | none => none
          | some dseg =>
            up_walk tbg block_type framebase grid_x
              (seg_write st dst_segment_name dseg block_type (framebase, up_step wordbase))
              (grid_y - 1) (up_step wordbase) n

/-- The body of the vertical pass for one `(block_type, [framebase, wordbase])`
item of one source segment: non-`CLB_IO_CLK` entries are skipped, otherwise a
50-step walk starts above the source's interconnect tile. -/
def up_entry (tbg : Int → Int → Option String) (st : St) (src : Segment)
    (block_type : String) (framebase wordbase : Int) : Option St :=
  if block_type ≠ "CLB_IO_CLK" then some st
  else
    match get_inttile st.database src with
    | none => none
    | some inttile =>
      match alookup st.database inttile with
      | none => none
      | some r => up_walk tbg block_type framebase r.gridX st r.gridY wordbase 50

/-- Processing of one source segment name in the vertical pass: the segment
and its `baseaddr` dict are read at processing time (`src_segment["baseaddr"]`
is a `KeyError` if the key is absent), items visited in sorted order. -/
def up_source (tbg : Int → Int → Option String) (st : St) (src_segment_name : String) :
    Option St :=
  match alookup st.segments src_segment_name with
  | none => none
  | some src =>
    match src.baseaddr with
    | none => none
    | some bas =>
      (sortByKey bas).foldlM (fun s e => up_entry tbg s src e.1 e.2.1 e.2.2) st

/-- The snapshot the vertical pass takes before propagating: the names of all
segments that currently have a `"baseaddr"` key. -/
def upSources (st : St) : List String :=
  (st.segments.filter (fun p => p.2.baseaddr.isSome)).map (fun p => p.1)

/-- `seg_base_addr_up_INT`: fold `up_source` over the sorted pre-pass
snapshot of source segment names. -/
def seg_base_addr_up_INT (tbg : Int → Int → Option String) (st : St) : Option St :=
  (sortStrings (upSources st)).foldlM (up_source tbg) st

/-! ### Bit annotation (source: `add_tile_bits`, `add_bits`) -/

/-- The per-family height table of `add_bits`; `None` means the
`ValueError("Unknown tile type")`. -/
def tile_height (tile_type : String) : Option Nat :=
  let f := nolr tile_type
  if f = "CLBLL" then some 2
  else if f = "CLBLM" then some 2
  else if f = "INT" then some 2
  else if f = "HCLK" then some 1
  else if f = "BRAM" then some 10
  else if f = "DSP" then some 10
  else if f = "INT_INTERFACE" then some 0
  else if f = "BRAM_INT_INTERFACE" then some 0
  else none

/-- `add_tile_bits`: re-classify the base address, assert the tile does not
already carry a `bits` entry for that block type, and attach
`{baseaddr (hex), offset, height}`. -/
def add_tile_bits (tile_db : TileRec) (baseaddr offset : Int) (height : Nat) :
    Option TileRec :=
  match addr2btype baseaddr with
  | none => none
  | some block_type =>
    if (alookup tile_db.bits block_type).isSome then none
    else some { tile_db with bits := tile_db.bits ++
      [(block_type, { baseaddr := hex8 baseaddr, offset := offset, height := height })] }

/-- One member tile of one segment entry in `add_bits`: height lookup
(`ValueError` on an unknown family), skip on height 0, else `add_tile_bits`. -/
def add_bits_tile (db : List (String × TileRec)) (tile_name : String)
    (baseaddr offset : Int) : Option (List (String × TileRec)) :=
  match alookup db tile_name with
  | none => none
  | some r =>
    match tile_height r.ttype with
    | none => none
    | some h =>
      if h = 0 then some db
      else
        match add_tile_bits r baseaddr offset h with
        | none => none
        | some r' => some (aset db tile_name r')

/-- `add_bits`: for every segment, `segments[name]["baseaddr"]` is read
unconditionally (`KeyError` when the key is absent), then every item is
written onto every member tile. -/
def add_bits (st : St) : Option St :=
  match st.segments.foldlM
      (fun db p =>
        match p.2.baseaddr with
        | none => none
        | some bas =>
          bas.foldlM
            (fun db1 e => p.2.tiles.foldlM
              (fun db2 tn => add_bits_tile db2 tn e.2.1 e.2.2) db1) db) st.database with
  | none => none
  | some db' => some { st with database := db' }

/-- Convenience accessor: the `[framebase, wordbase]` pair a segment holds for
a block type (`none` when the segment, its `baseaddr` key, or the entry is
missing). -/
def getBase (st : St) (segment_name block_type : String) : Option (Int × Int) :=
  match alookup st.segments segment_name with
  | none => none
  | some sg =>
    match sg.baseaddr with
    | none => none
    | some bas => alookup bas block_type

/-! ### Association-list lemmas -/

theorem alookup_aset_self {α : Type} (l : List (String × α)) (k : String) (v : α) :
    alookup (aset l k v) k = some v := by
  induction l with
  | nil => simp [aset, alookup]
  | cons p t ih =>
    by_cases h : p.1 = k
    · simp [aset, alookup, h]
    · simp [aset, alookup, h, ih]

theorem alookup_aset_ne {α : Type} (l : List (String × α)) (k k' : String) (v : α)
    (h : k ≠ k') : alookup (aset l k v) k' = alookup l k' := by
  induction l with
  | nil => simp [aset, alookup, h]
  | cons p t ih =>
    by_cases hp : p.1 = k
    · simp [aset, alookup, hp, h]
    · by_cases hp' : p.1 = k'
      · simp [aset, alookup, hp, hp', Ne.symm h]
      · simp [aset, alookup, hp, hp', ih]

theorem alookup_isSome_of_mem {α : Type} {l : List (String × α)} {k : String} {v : α}
    (h : (k, v) ∈ l) : (alookup l k).isSome := by
  induction l with
  | nil => simp at h
  | cons p t ih =>
    rcases List.mem_cons.mp h with h1 | h1
    · simp [alookup, ← h1]
    · by_cases hp : p.1 = k
      · simp [alookup, hp]
      · simp [alookup, hp]
        exact ih h1

theorem not_mem_of_alookup_none {α : Type} {l : List (String × α)} {k : String}
    (h : alookup l k = none) : ∀ v, (k, v) ∉ l := by
  intro v hmem
  have := alookup_isSome_of_mem hmem
  simp [h] at this

/-! ### `add_segment` characterization -/

theorem set_tile_segments_spec :
    ∀ (tiles : List String) (db db' : List (String × TileRec)) (name : String),
      set_tile_segments db tiles name = some db' →
      (∀ t ∈ tiles, ∃ r, alookup db' t = some r ∧ r.segment = some name) ∧
      (∀ u, u ∉ tiles → alookup db' u = alookup db u) := by
  intro tiles
  induction tiles with
  | nil =>
    intro db db' name h
    simp [set_tile_segments] at h
    subst h
    exact ⟨by simp, fun u _ => rfl⟩
  | cons t ts ih =>
    intro db db' name h
    simp only [set_tile_segments] at h
    cases hdb : alookup db t with
    | none => simp [hdb] at h
    | some r =>
      rw [hdb] at h
      obtain ⟨ih1, ih2⟩ := ih _ _ _ h
      constructor
      · intro t' ht'
        rcases List.mem_cons.mp ht' with h1 | h1
        · subst h1
          by_cases hts : t' ∈ ts
          · exact ih1 t' hts
          · refine ⟨{ r with segment := some name }, ?_, rfl⟩
            rw [ih2 t' hts, alookup_aset_self]
        · exact ih1 t' h1
      · intro u hu
        have hut : u ≠ t := fun he => hu (he ▸ List.mem_cons_self t ts)
        have huts : u ∉ ts := fun he => hu (List.mem_cons_of_mem t he)
        rw [ih2 u huts, alookup_aset_ne _ _ _ _ (Ne.symm hut)]

theorem add_segment_spec {st : St} {name : String} {tiles : List String}
    {segtype : String} {frames words : Nat} {baseaddr : Option BaseAddrs} {st' : St}
    (h : add_segment st name tiles segtype frames words baseaddr = some st') :
    alookup st.segments name = none ∧
    st'.segments = st.segments ++
      [(name, { tiles := tiles, segtype := segtype, frames := frames,
                words := words, baseaddr := truthy baseaddr })] ∧
    (∀ t ∈ tiles, ∃ r, alookup st'.database t = some r ∧ r.segment = some name) ∧
    (∀ u, u ∉ tiles → alookup st'.database u = alookup st.database u) := by
  unfold add_segment at h
  cases hfresh : (alookup st.segments name).isSome with
  | true => rw [hfresh] at h; simp at h
  | false =>
    rw [hfresh] at h
    simp only [Bool.false_eq_true, if_false] at h
    cases hset : set_tile_segments st.database tiles name with
    | none => rw [hset] at h; simp at h
    | some db' =>
      rw [hset] at h
      obtain ⟨h1, h2⟩ := set_tile_segments_spec tiles st.database db' name hset
      have hst' : st' = { database := db', segments := st.segments ++
          [(name, { tiles := tiles, segtype := segtype, frames := frames,
                    words := words, baseaddr := truthy baseaddr })] } := by
        exact (Option.some.injEq _ _).mp h.symm |>.symm ▸ rfl
      subst hst'
      exact ⟨Option.not_isSome_iff_eq_none.mp (by simp [hfresh]), rfl, h1, h2⟩

/-! ### C5: block-type classification -/

/-- C5: for every frame address, classification extracts bits 23-25 (the
floor-shift by 23 then mod 8); code 0 yields `CLB_IO_CLK`, code 1
`BLOCK_RAM`, code 2 `CFG_CLB`, and every code 3-7 fails (`none`), never a
default value. -/
theorem addr2btype_classification (a : Int) :
    0 ≤ (a.fdiv (2 ^ 23)).emod 8 ∧ (a.fdiv (2 ^ 23)).emod 8 < 8 ∧
    ((a.fdiv (2 ^ 23)).emod 8 = 0 → addr2btype a = some "CLB_IO_CLK") ∧
    ((a.fdiv (2 ^ 23)).emod 8 = 1 → addr2btype a = some "BLOCK_RAM") ∧
    ((a.fdiv (2 ^ 23)).emod 8 = 2 → addr2btype a = some "CFG_CLB") ∧
    (3 ≤ (a.fdiv (2 ^ 23)).emod 8 → addr2btype a = none) := by
  refine ⟨Int.emod_nonneg _ (by decide), Int.emod_lt_of_pos _ (by decide), ?_, ?_, ?_, ?_⟩
  · intro h; norm_num at h; simp [addr2btype, block_type_i2s, h]
  · intro h; norm_num at h; simp [addr2btype, block_type_i2s, h]
  · intro h; norm_num at h; simp [addr2btype, block_type_i2s, h]
  · intro h
    have h0 : (a.fdiv (2 ^ 23)).emod 8 ≠ 0 := by omega
    have h1 : (a.fdiv (2 ^ 23)).emod 8 ≠ 1 := by omega
    have h2 : (a.fdiv (2 ^ 23)).emod 8 ≠ 2 := by omega
    norm_num at h0 h1 h2
    simp [addr2btype, block_type_i2s, h0, h1, h2]

/-- Witness for C5 at the four code classes 0, 1, 2 and 3. -/
theorem addr2btype_classification_witness :
    addr2btype 0x00400000 = some "CLB_IO_CLK" ∧
    addr2btype 0x00800000 = some "BLOCK_RAM" ∧
    addr2btype 0x01000000 = some "CFG_CLB" ∧
    addr2btype 0x01800000 = none :=
  ⟨(addr2btype_classification 0x00400000).2.2.1 (by decide),
   (addr2btype_classification 0x00800000).2.2.2.1 (by decide),
   (addr2btype_classification 0x01000000).2.2.2.2.1 (by decide),
   (addr2btype_classification 0x01800000).2.2.2.2.2 (by decide)⟩

/-! ### C3: word-offset stepping in the vertical walk -/

theorem up_iter_of_no_fifty :
    ∀ (n : Nat) (w : Int), (∀ i < n, up_step^[i] w ≠ 50) → up_step^[n] w = w + 2 * n := by
  intro n
  induction n with
  | zero => intro w _; simp
  | succ m ih =>
    intro w h
    have heq := ih w (fun i hi => h i (Nat.lt_succ_of_lt hi))
    have hm : up_step^[m] w ≠ 50 := h m (Nat.lt_succ_self m)
    rw [Function.iterate_succ_apply', heq]
    rw [heq] at hm
    unfold up_step
    rw [if_neg hm]
    push_cast
    ring

theorem up_step_eq (v : Int) : up_step v = if v = 50 then v + 1 else v + 2 := rfl

theorem up_iter_odd (k : Nat) (v : Int) (h : v % 2 = 1) : (up_step^[k] v) % 2 = 1 := by
  induction k with
  | zero => simpa
  | succ m ih =>
    rw [Function.iterate_succ_apply', up_step_eq]
    split <;> omega

theorem up_iter_fifty_unique (w : Int) (i : Nat) (hi : i < 50) (h : up_step^[i] w = 50) :
    ((Finset.range 50).filter (fun j => up_step^[j] w = 50)).card = 1 := by
  have h51 : up_step 50 = 51 := by unfold up_step; simp
  have key : ∀ j, up_step^[j] w = 50 → j = i := by
    intro j hj
    by_contra hne
    rcases Nat.lt_or_ge j i with hlt | hge
    · have hsplit : up_step^[i] w = up_step^[i - j] (up_step^[j] w) := by
        rw [← Function.iterate_add_apply]
        congr 1
        omega
      rw [hj] at hsplit
      have hij : i - j = (i - j - 1) + 1 := by omega
      rw [hij, Function.iterate_succ_apply, h51] at hsplit
      have hodd := up_iter_odd (i - j - 1) 51 (by decide)
      rw [← hsplit] at hodd
      rw [h] at hodd
      omega
    · have hgt : i < j := by omega
      have hsplit : up_step^[j] w = up_step^[j - i] (up_step^[i] w) := by
        rw [← Function.iterate_add_apply]
        congr 1
        omega
      rw [h] at hsplit
      have hij : j - i = (j - i - 1) + 1 := by omega
      rw [hij, Function.iterate_succ_apply, h51] at hsplit
      have hodd := up_iter_odd (j - i - 1) 51 (by decide)
      rw [← hsplit] at hodd
      rw [hj] at hodd
      omega
  have hset : (Finset.range 50).filter (fun j => up_step^[j] w = 50) = {i} := by
    apply Finset.eq_singleton_iff_unique_mem.mpr
    constructor
    · simp only [Finset.mem_filter, Finset.mem_range]
      exact ⟨hi, h⟩
    · intro x hx
      simp only [Finset.mem_filter, Finset.mem_range] at hx
      exact key x hx.2
  rw [hset, Finset.card_singleton]

theorem up_walk_succ_inv {tbg : Int → Int → Option String} {bt : String} {fb gx : Int}
    {st : St} {gy w : Int} {n : Nat} {st' : St}
    (h : up_walk tbg bt fb gx st gy w (n + 1) = some st') :
    ∃ tn r dn dseg, tbg gx (gy - 1) = some tn ∧ alookup st.database tn = some r ∧
      r.segment = some dn ∧ alookup st.segments dn = some dseg ∧
      up_walk tbg bt fb gx (seg_write st dn dseg bt (fb, up_step w)) (gy - 1) (up_step w) n
        = some st' := by
  simp only [up_walk] at h
  split at h
  · simp at h
  next tn htn =>
    split at h
    · simp at h
    next r hr =>
      split at h
      · simp at h
      next dn hdn =>
        split at h
        · simp at h
        next dseg hdseg =>
          exact ⟨tn, r, dn, dseg, htn, hr, hdn, hdseg, h⟩

/-- C3: for every vertical walk, the word offset starts at the source's
`word_offset` and is advanced once per step by `up_step` (`+1` exactly when
the current value is 50, else `+2`), the grid row decreases by 1 per step,
and `up_entry` performs exactly 50 such steps; numerically, a walk whose
offset never reaches 50 within its 50 checks ends exactly 100 higher, and a
walk that does reach 50 contains exactly one `+1` increment. -/
theorem up_INT_word_offset_stepping :
    (∀ w : Int, (∀ i < 50, up_step^[i] w ≠ 50) → up_step^[50] w = w + 100) ∧
    (∀ (w : Int) (i : Nat), i < 50 → up_step^[i] w = 50 →
      ((Finset.range 50).filter (fun j => up_step^[j] w = 50)).card = 1) ∧
    (∀ (tbg : Int → Int → Option String) (bt : String) (fb gx : Int) (st : St)
      (gy w : Int) (n : Nat) (st' : St),
      up_walk tbg bt fb gx st gy w (n + 1) = some st' →
      ∃ tn r dn dseg, tbg gx (gy - 1) = some tn ∧ alookup st.database tn = some r ∧
        r.segment = some dn ∧ alookup st.segments dn = some dseg ∧
        up_walk tbg bt fb gx (seg_write st dn dseg bt (fb, up_step w)) (gy - 1) (up_step w) n
          = some st') ∧
    (∀ (tbg : Int → Int → Option String) (st : St) (src : Segment) (fb w : Int),
      up_entry tbg st src "CLB_IO_CLK" fb w =
        match get_inttile st.database src with
        | none => none
        | some inttile =>
          match alookup st.database inttile with
          | none => none
          | some r => up_walk tbg "CLB_IO_CLK" fb r.gridX st r.gridY w 50) := by
  refine ⟨?_, ?_, ?_, ?_⟩
  · intro w h
    have := up_iter_of_no_fifty 50 w h
    rw [this]
    norm_num
  · exact up_iter_fifty_unique
  · intro tbg bt fb gx st gy w n st' h
    exact up_walk_succ_inv h
  · intro tbg st src fb w
    rfl

/-- Concrete one-step walk state for the C3 witness. -/
def wSt : St :=
  { database := [("t1", { ttype := "INT_L", gridX := 0, gridY := 0, segment := some "S" })],
    segments := [("S", { tiles := ["t1"], segtype := "int_l", frames := 36, words := 2 })] }

def wTbg : Int → Int → Option String :=
  fun x y => if x = 0 ∧ y = 0 then some "t1" else none

def wRes : St := (up_walk wTbg "CLB_IO_CLK" 5 0 wSt 1 0 1).getD wSt

/-- Witness for C3: a 50-step run from an odd offset gains exactly 100, a run
from 0 hits 50 once, and the one-step inversion on a concrete walk. -/
theorem up_INT_word_offset_stepping_witness :
    up_step^[50] (1 : Int) = 101 ∧
    ((Finset.range 50).filter (fun j => up_step^[j] (0 : Int) = 50)).card = 1 ∧
    (∃ tn r dn dseg, wTbg 0 (1 - 1) = some tn ∧ alookup wSt.database tn = some r ∧
      r.segment = some dn ∧ alookup wSt.segments dn = some dseg ∧
      up_walk wTbg "CLB_IO_CLK" 5 0 (seg_write wSt dn dseg "CLB_IO_CLK" (5, up_step 0))
        (1 - 1) (up_step 0) 0 = some wRes) := by
  refine ⟨?_, ?_, ?_⟩
  · have := up_INT_word_offset_stepping.1 1 (by decide)
    omega
  · exact up_INT_word_offset_stepping.2.1 0 25 (by decide) (by decide)
  · exact up_INT_word_offset_stepping.2.2.1 wTbg "CLB_IO_CLK" 5 0 wSt 1 0 0 wRes (by rfl)

/-! ### C2: lateral propagation across the interconnect boundary -/

/-- C2: for a source segment whose unique interconnect tile is `INT_L`, the
derived address `(frame_base + 0x80, same word_offset)` goes to the segment
owning the tile at `(x+1, y)` under `CLB_IO_CLK`; symmetrically `INT_R` sends
`(frame_base - 0x80, same word_offset)` to `(x-1, y)`; a destination
coordinate absent from the grid skips the source without error or entry; a
present destination of the wrong orientation aborts. -/
theorem lr_INT_mirror (tbg : Int → Int → Option String) (st : St) (segment : Segment)
    (fb wb : Int) (inttile : String) (intrec : TileRec)
    (hin : get_inttile st.database segment = some inttile)
    (hrec : alookup st.database inttile = some intrec) :
    (intrec.ttype = "INT_L" → tbg (intrec.gridX + 1) intrec.gridY = none →
      lr_entry tbg st segment "CLB_IO_CLK" fb wb = some st) ∧
    (intrec.ttype = "INT_R" → tbg (intrec.gridX - 1) intrec.gridY = none →
      lr_entry tbg st segment "CLB_IO_CLK" fb wb = some st) ∧
    (∀ d dr, intrec.ttype = "INT_L" → tbg (intrec.gridX + 1) intrec.gridY = some d →
      alookup st.database d = some dr → ¬ dr.ttype = "INT_R" →
      lr_entry tbg st segment "CLB_IO_CLK" fb wb = none) ∧
    (∀ d dr, intrec.ttype = "INT_R" → tbg (intrec.gridX - 1) intrec.gridY = some d →
      alookup st.database d = some dr → ¬ dr.ttype = "INT_L" →
      lr_entry tbg st segment "CLB_IO_CLK" fb wb = none) ∧
    (∀ d dr sn st', intrec.ttype = "INT_L" → tbg (intrec.gridX + 1) intrec.gridY = some d →
      alookup st.database d = some dr → dr.ttype = "INT_R" → dr.segment = some sn →
      lr_entry tbg st segment "CLB_IO_CLK" fb wb = some st' →
      getBase st' sn "CLB_IO_CLK" = some (fb + 0x80, wb)) ∧
    (∀ d dr sn st', intrec.ttype = "INT_R" → tbg (intrec.gridX - 1) intrec.gridY = some d →
      alookup st.database d = some dr → dr.ttype = "INT_L" → dr.segment = some sn →
      lr_entry tbg st segment "CLB_IO_CLK" fb wb = some st' →
      getBase st' sn "CLB_IO_CLK" = some (fb - 0x80, wb)) := by
  refine ⟨?_, ?_, ?_, ?_, ?_, ?_⟩
  · intro htype hnone
    simp [lr_entry, hin, hrec, htype, hnone]
  · intro htype hnone
    simp [lr_entry, hin, hrec, htype, hnone]
  · intro d dr htype htbg hdr hw
    simp [lr_entry, hin, hrec, htype, htbg, hdr, hw]
  · intro d dr htype htbg hdr hw
    simp [lr_entry, hin, hrec, htype, htbg, hdr, hw]
  · intro d dr sn st' htype htbg hdr hw hseg h
    simp [lr_entry, hin, hrec, htype, htbg, hdr, hw, hseg] at h
    cases hds : alookup st.segments sn with
    | none => rw [hds] at h; simp at h
    | some dseg =>
      rw [hds] at h
      simp only [] at h
      cases hv : alookup (dseg.baseaddr.getD []) "CLB_IO_CLK" with
      | some v =>
        rw [hv] at h
        simp only [] at h
        by_cases hveq : v = (fb + 0x80, wb)
        · rw [if_pos hveq] at h
          have hst : st' = st := by
            injection h with h'
            exact h'.symm
          subst hst
          simp [getBase, hds]
          cases hbd : dseg.baseaddr with
          | none => rw [hbd] at hv; simp [alookup] at hv
          | some bas =>
            rw [hbd] at hv
            simp at hv
            simp [hv, hveq]
        · rw [if_neg hveq] at h
          simp at h
      | none =>
        rw [hv] at h
        simp only [] at h
        have hst : st' = seg_write st sn dseg "CLB_IO_CLK" (fb + 0x80, wb) := by
          injection h with h'
          rw [← h']
          rfl
        subst hst
        simp [getBase, seg_write, alookup_aset_self]
  · intro d dr sn st' htype htbg hdr hw hseg h
    simp [lr_entry, hin, hrec, htype, htbg, hdr, hw, hseg] at h
    cases hds : alookup st.segments sn with
    | none => rw [hds] at h; simp at h
    | some dseg =>
      rw [hds] at h
      simp only [] at h
      cases hv : alookup (dseg.baseaddr.getD []) "CLB_IO_CLK" with
      | some v =>
        rw [hv] at h
        simp only [] at h
        by_cases hveq : v = (fb - 0x80, wb)
        · rw [if_pos hveq] at h
          have hst : st' = st := by
            injection h with h'
            exact h'.symm
          subst hst
          simp [getBase, hds]
          cases hbd : dseg.baseaddr with
          | none => rw [hbd] at hv; simp [alookup] at hv
          | some bas =>
            rw [hbd] at hv
            simp at hv
            simp [hv, hveq]
        · rw [if_neg hveq] at h
          simp at h
      | none =>
        rw [hv] at h
        simp only [] at h
        have hst : st' = seg_write st sn dseg "CLB_IO_CLK" (fb - 0x80, wb) := by
          injection h with h'
          rw [← h']
          rfl
        subst hst
        simp [getBase, seg_write, alookup_aset_self]

/-! Concrete lateral-pass states for witnesses. -/

def lrDb : List (String × TileRec) :=
  [("c1", { ttype := "CLBLL_L", gridX := 0, gridY := 0, segment := some "SEG_c1" }),
   ("IL", { ttype := "INT_L", gridX := 1, gridY := 0, segment := some "SEG_c1" }),
   ("IR", { ttype := "INT_R", gridX := 2, gridY := 0, segment := some "SEG_c2" }),
   ("c2", { ttype := "CLBLL_R", gridX := 3, gridY := 0, segment := some "SEG_c2" })]

def ILrec : TileRec := { ttype := "INT_L", gridX := 1, gridY := 0, segment := some "SEG_c1" }

def IRrec : TileRec := { ttype := "INT_R", gridX := 2, gridY := 0, segment := some "SEG_c2" }

def lrSrcSeg : Segment :=
  { tiles := ["c1", "IL"], segtype := "clbll_l", frames := 36, words := 2,
    baseaddr := some [("CLB_IO_CLK", (0x00400000, 0))] }

def lrDstSeg : Segment :=
  { tiles := ["c2", "IR"], segtype := "clbll_r", frames := 36, words := 2 }

def lrSt : St := { database := lrDb, segments := [("SEG_c1", lrSrcSeg), ("SEG_c2", lrDstSeg)] }

def lrTbg : Int → Int → Option String := fun x y =>
  if y = 0 then
    if x = 0 then some "c1"
    else if x = 1 then some "IL"
    else if x = 2 then some "IR"
    else if x = 3 then some "c2"
    else none
  else none

def lrRes : St := (lr_entry lrTbg lrSt lrSrcSeg "CLB_IO_CLK" 0x00400000 0).getD lrSt

/-- An `INT_L` source at the edge of the grid: the mirrored coordinate is absent. -/
def lrEdgeDb : List (String × TileRec) :=
  [("ce", { ttype := "CLBLL_L", gridX := 5, gridY := 7, segment := some "SEG_ce" }),
   ("ILe", { ttype := "INT_L", gridX := 6, gridY := 7, segment := some "SEG_ce" })]

def ILeRec : TileRec := { ttype := "INT_L", gridX := 6, gridY := 7, segment := some "SEG_ce" }

def lrEdgeSeg : Segment :=
  { tiles := ["ce", "ILe"], segtype := "clbll_l", frames := 36, words := 2,
    baseaddr := some [("CLB_IO_CLK", (0x00400000, 0))] }

def lrEdgeSt : St := { database := lrEdgeDb, segments := [("SEG_ce", lrEdgeSeg)] }

def lrEdgeTbg : Int → Int → Option String := fun x y =>
  if y = 7 ∧ x = 5 then some "ce" else if y = 7 ∧ x = 6 then some "ILe" else none

/-- Witness for C2: on a concrete grid the edge case skips (state unchanged,
no error), and the mirrored neighbour's segment ends up holding the source
address plus `0x80` with the same word offset. -/
theorem lr_INT_mirror_witness :
    lr_entry lrEdgeTbg lrEdgeSt lrEdgeSeg "CLB_IO_CLK" 0x00400000 0 = some lrEdgeSt ∧
    getBase lrRes "SEG_c2" "CLB_IO_CLK" = some (0x00400000 + 0x80, 0) :=
  ⟨(lr_INT_mirror lrEdgeTbg lrEdgeSt lrEdgeSeg 0x00400000 0 "ILe" ILeRec rfl rfl).1 rfl rfl,
   (lr_INT_mirror lrTbg lrSt lrSrcSeg 0x00400000 0 "IL" ILrec rfl rfl).2.2.2.2.1
     "IR" IRrec "SEG_c2" lrRes rfl rfl rfl rfl rfl rfl⟩

/-! ### C1 (amended): consistency checking of re-derived addresses -/

/-- C1 (amended): in the *lateral* pass, when the destination segment already
holds a `CLB_IO_CLK` entry, a re-derivation equal to it leaves the state
unchanged and a differing re-derivation aborts; the vertical pass instead
overwrites unconditionally (see the counterexample). -/
theorem lr_INT_existing_entry_check (tbg : Int → Int → Option String) (st : St)
    (segment : Segment) (fb wb : Int) (inttile : String) (intrec : TileRec)
    (sn : String) (dseg : Segment) (v : Int × Int)
    (hin : get_inttile st.database segment = some inttile)
    (hrec : alookup st.database inttile = some intrec)
    (hds : alookup st.segments sn = some dseg)
    (hv : alookup (dseg.baseaddr.getD []) "CLB_IO_CLK" = some v) :
    (∀ d dr, intrec.ttype = "INT_L" → tbg (intrec.gridX + 1) intrec.gridY = some d →
      alookup st.database d = some dr → dr.ttype = "INT_R" → dr.segment = some sn →
      ((v = (fb + 0x80, wb) → lr_entry tbg st segment "CLB_IO_CLK" fb wb = some st) ∧
       (v ≠ (fb + 0x80, wb) → lr_entry tbg st segment "CLB_IO_CLK" fb wb = none))) ∧
    (∀ d dr, intrec.ttype = "INT_R" → tbg (intrec.gridX - 1) intrec.gridY = some d →
      alookup st.database d = some dr → dr.ttype = "INT_L" → dr.segment = some sn →
      ((v = (fb - 0x80, wb) → lr_entry tbg st segment "CLB_IO_CLK" fb wb = some st) ∧
       (v ≠ (fb - 0x80, wb) → lr_entry tbg st segment "CLB_IO_CLK" fb wb = none))) := by
  constructor
  · intro d dr htype htbg hdr hw hseg
    constructor
    · intro hveq
      simp [lr_entry, hin, hrec, htype, htbg, hdr, hw, hseg, hds, hv, hveq]
    · intro hvne
      simp [lr_entry, hin, hrec, htype, htbg, hdr, hw, hseg, hds, hv, hvne]
  · intro d dr htype htbg hdr hw hseg
    constructor
    · intro hveq
      simp [lr_entry, hin, hrec, htype, htbg, hdr, hw, hseg, hds, hv, hveq]
    · intro hvne
      simp [lr_entry, hin, hrec, htype, htbg, hdr, hw, hseg, hds, hv, hvne]

/-- Destination segment already holding the matching derived value. -/
def lrDstSegEq : Segment :=
  { tiles := ["c2", "IR"], segtype := "clbll_r", frames := 36, words := 2,
    baseaddr := some [("CLB_IO_CLK", (0x00400080, 0))] }

def lrStEq : St := { database := lrDb, segments := [("SEG_c1", lrSrcSeg), ("SEG_c2", lrDstSegEq)] }

/-- Destination segment already holding a different value. -/
def lrDstSegNe : Segment :=
  { tiles := ["c2", "IR"], segtype := "clbll_r", frames := 36, words := 2,
    baseaddr := some [("CLB_IO_CLK", (0x12345600, 0))] }

def lrStNe : St := { database := lrDb, segments := [("SEG_c1", lrSrcSeg), ("SEG_c2", lrDstSegNe)] }

/-- Witness for the amended C1: a matching re-derivation is a no-op, a
mismatching one aborts, on concrete states. -/
theorem lr_INT_existing_entry_check_witness :
    lr_entry lrTbg lrStEq lrSrcSeg "CLB_IO_CLK" 0x00400000 0 = some lrStEq ∧
    lr_entry lrTbg lrStNe lrSrcSeg "CLB_IO_CLK" 0x00400000 0 = none :=
  ⟨((lr_INT_existing_entry_check lrTbg lrStEq lrSrcSeg 0x00400000 0 "IL" ILrec
      "SEG_c2" lrDstSegEq (0x00400080, 0) rfl rfl rfl rfl).1
      "IR" IRrec rfl rfl rfl rfl rfl).1 (by decide),
   ((lr_INT_existing_entry_check lrTbg lrStNe lrSrcSeg 0x00400000 0 "IL" ILrec
      "SEG_c2" lrDstSegNe (0x12345600, 0) rfl rfl rfl rfl).1
      "IR" IRrec rfl rfl rfl rfl rfl).2 (by decide)⟩

/-! ### C10: the vertical walk has no out-of-grid skip -/

theorem up_walk_coords : ∀ (n : Nat) (tbg : Int → Int → Option String) (bt : String)
    (fb gx : Int) (st : St) (gy w : Int) (st' : St),
    up_walk tbg bt fb gx st gy w n = some st' →
    ∀ i : Nat, i < n → ∃ t r, tbg gx (gy - (i + 1)) = some t ∧
      alookup st.database t = some r ∧ r.segment.isSome := by
  intro n
  induction n with
  | zero =>
    intro tbg bt fb gx st gy w st' _ i hi
    exact absurd hi (Nat.not_lt_zero i)
  | succ m ih =>
    intro tbg bt fb gx st gy w st' h i hi
    obtain ⟨tn, r, dn, dseg, htn, hr, hdn, hds, hrec⟩ := up_walk_succ_inv h
    cases i with
    | zero =>
      refine ⟨tn, r, ?_, hr, by simp [hdn]⟩
      simpa using htn
    | succ j =>
      obtain ⟨t, r2, h1, h2, h3⟩ := ih tbg bt fb gx _ (gy - 1) (up_step w) st' hrec j (by omega)
      refine ⟨t, r2, ?_, h2, h3⟩
      rw [← h1]
      congr 1
      push_cast
      ring

/-- C10: a successful vertical walk requires every one of its `n` destination
coordinates (`y-1` down to `y-n`) to be present in the grid with a
database record that already carries an owning segment; a missing coordinate
or an unowned destination tile makes the walk fail (`none`) instead of
skipping, unlike the lateral pass's non-fatal edge skip. -/
theorem up_INT_no_skip :
    (∀ (n : Nat) (tbg : Int → Int → Option String) (bt : String) (fb gx : Int)
      (st : St) (gy w : Int) (st' : St),
      up_walk tbg bt fb gx st gy w n = some st' →
      ∀ i : Nat, i < n → ∃ t r, tbg gx (gy - (i + 1)) = some t ∧
        alookup st.database t = some r ∧ r.segment.isSome) ∧
    (∀ (n : Nat) (tbg : Int → Int → Option String) (bt : String) (fb gx : Int)
      (st : St) (gy w : Int), tbg gx (gy - 1) = none →
      up_walk tbg bt fb gx st gy w (n + 1) = none) ∧
    (∀ (n : Nat) (tbg : Int → Int → Option String) (bt : String) (fb gx : Int)
      (st : St) (gy w : Int) (t : String) (r : TileRec),
      tbg gx (gy - 1) = some t → alookup st.database t = some r → r.segment = none →
      up_walk tbg bt fb gx st gy w (n + 1) = none) := by
  refine ⟨fun n => up_walk_coords n, ?_, ?_⟩
  · intro n tbg bt fb gx st gy w h
    simp [up_walk, h]
  · intro n tbg bt fb gx st gy w t r ht hr hseg
    simp [up_walk, ht, hr, hseg]

/-- Witness for C10: the three parts applied to concrete one-step walks. -/
theorem up_INT_no_skip_witness :
    (∃ t r, wTbg 0 (1 - (0 + 1)) = some t ∧ alookup wSt.database t = some r ∧
      r.segment.isSome) ∧
    up_walk (fun _ _ => none) "CLB_IO_CLK" 5 0 wSt 1 0 1 = none ∧
    up_walk wTbg "CLB_IO_CLK" 5 0
      { wSt with database := [("t1", { ttype := "INT_L", gridX := 0, gridY := 0 })] }
      1 0 1 = none :=
  ⟨up_INT_no_skip.1 1 wTbg "CLB_IO_CLK" 5 0 wSt 1 0 wRes (by rfl) 0 (by decide),
   up_INT_no_skip.2.1 0 (fun _ _ => none) "CLB_IO_CLK" 5 0 wSt 1 0 rfl,
   up_INT_no_skip.2.2 0 wTbg "CLB_IO_CLK" 5 0
     { wSt with database := [("t1", { ttype := "INT_L", gridX := 0, gridY := 0 })] }
     1 0 "t1" { ttype := "INT_L", gridX := 0, gridY := 0 } rfl rfl rfl⟩

/-! ### Concrete vertical-pass states: two CLB rows above a 50-tile column -/

def upDb : List (String × TileRec) :=
  [("cA", { ttype := "CLBLL_L", gridX := 0, gridY := 50, segment := some "A" }),
   ("TA", { ttype := "INT_L", gridX := 1, gridY := 50, segment := some "A" }),
   ("cB", { ttype := "CLBLL_L", gridX := 0, gridY := 51, segment := some "B" }),
   ("TB", { ttype := "INT_L", gridX := 1, gridY := 51, segment := some "B" })] ++
  (List.range 50).map (fun i =>
    ("u" ++ toString i, { ttype := "INT_L", gridX := 1, gridY := (i : Int),
                          segment := some ("U" ++ toString i) }))

def upSegs : List (String × Segment) :=
  [("A", { tiles := ["cA", "TA"], segtype := "clbll_l", frames := 36, words := 2,
           baseaddr := some [("CLB_IO_CLK", (999, 7))] }),
   ("B", { tiles := ["cB", "TB"], segtype := "clbll_l", frames := 36, words := 2,
           baseaddr := some [("CLB_IO_CLK", (256, 0))] })] ++
  (List.range 50).map (fun i =>
    ("U" ++ toString i, { tiles := ["u" ++ toString i], segtype := "int_l",
                          frames := 36, words := 2 }))

def upTbg : Int → Int → Option String := fun x y =>
  if x = 1 then
    if y = 50 then some "TA"
    else if y = 51 then some "TB"
    else if 0 ≤ y ∧ y < 50 then some ("u" ++ toString y.toNat)
    else none
  else if x = 0 then
    if y = 50 then some "cA" else if y = 51 then some "cB" else none
  else none

def upSt : St := { database := upDb, segments := upSegs }

def upRes : St := (seg_base_addr_up_INT upTbg upSt).getD upSt

/-- Counterexample for C1: segment `A` holds `CLB_IO_CLK = (999, 7)` before
the vertical pass; source `B` one row above derives `(256, 2)` for `A`'s
tile; the pass succeeds (no abort) and `A`'s differing earlier value is
silently replaced. -/
theorem up_INT_silent_overwrite_counterexample :
    getBase upSt "A" "CLB_IO_CLK" = some (999, 7) ∧
    seg_base_addr_up_INT upTbg upSt = some upRes ∧
    getBase upRes "A" "CLB_IO_CLK" = some (256, 2) ∧
    ((999, 7) : Int × Int) ≠ (256, 2) :=
  ⟨rfl, rfl, rfl, by decide⟩

/-! ### C4: the vertical pass snapshot -/

def c4Db : List (String × TileRec) :=
  [("cSA", { ttype := "CLBLL_L", gridX := 0, gridY := 51, segment := some "SA" }),
   ("VA", { ttype := "INT_L", gridX := 1, gridY := 51, segment := some "SA" }),
   ("cSB", { ttype := "CLBLL_L", gridX := 0, gridY := 50, segment := some "SB" }),
   ("VB", { ttype := "INT_L", gridX := 1, gridY := 50, segment := some "SB" })] ++
  (List.range 50).map (fun i =>
    ("v" ++ toString i, { ttype := "INT_L", gridX := 1, gridY := (i : Int),
                          segment := some ("V" ++ toString i) }))

def c4SegSB : Segment :=
  { tiles := ["cSB", "VB"], segtype := "clbll_l", frames := 36, words := 2,
    baseaddr := some [("BLOCK_RAM", (777, 5))] }

def c4Segs : List (String × Segment) :=
  [("SA", { tiles := ["cSA", "VA"], segtype := "clbll_l", frames := 36, words := 2,
            baseaddr := some [("CLB_IO_CLK", (256, 0))] }),
   ("SB", c4SegSB)] ++
  (List.range 50).map (fun i =>
    ("V" ++ toString i, { tiles := ["v" ++ toString i], segtype := "int_l",
                          frames := 36, words := 2 }))

def c4Tbg : Int → Int → Option String := fun x y =>
  if x = 1 then
    if y = 51 then some "VA"
    else if y = 50 then some "VB"
    else if 0 ≤ y ∧ y < 50 then some ("v" ++ toString y.toNat)
    else none
  else if x = 0 then
    if y = 51 then some "cSA" else if y = 50 then some "cSB" else none
  else none

def c4St : St := { database := c4Db, segments := c4Segs }

def c4Res : St := (seg_base_addr_up_INT c4Tbg c4St).getD c4St

/-- The same state with `SB`'s `BLOCK_RAM` seed removed: the pre-pass
`CLB_IO_CLK` holders are identical (`SA` only). -/
def c4StNoRam : St :=
  { database := c4Db,
    segments := aset c4Segs "SB" { c4SegSB with baseaddr := none } }

def c4ResNoRam : St := (seg_base_addr_up_INT c4Tbg c4StNoRam).getD c4StNoRam

/-- Counterexample for C4: `SA` is the only segment holding `CLB_IO_CLK`
before the pass, yet segment `V0` — reachable only through `SB`'s
interconnect column — ends with an entry, because `SB` (snapshotted for its
`BLOCK_RAM` entry) propagates the `CLB_IO_CLK` value it acquires *during*
the pass; with `SB`'s unrelated `BLOCK_RAM` seed removed, the pre-pass
`CLB_IO_CLK` holders are unchanged but `V0` stays empty. -/
theorem up_INT_snapshot_counterexample :
    getBase c4St "SB" "CLB_IO_CLK" = none ∧
    getBase c4St "SB" "BLOCK_RAM" = some (777, 5) ∧
    (∀ p ∈ c4St.segments, (alookup (p.2.baseaddr.getD []) "CLB_IO_CLK").isSome → p.1 = "SA") ∧
    seg_base_addr_up_INT c4Tbg c4St = some c4Res ∧
    getBase c4Res "V0" "CLB_IO_CLK" = some (256, 101) ∧
    (∀ p ∈ c4StNoRam.segments,
      (alookup (p.2.baseaddr.getD []) "CLB_IO_CLK").isSome → p.1 = "SA") ∧
    seg_base_addr_up_INT c4Tbg c4StNoRam = some c4ResNoRam ∧
    getBase c4ResNoRam "V0" "CLB_IO_CLK" = none :=
  ⟨rfl, rfl, by decide, rfl, rfl, by decide, rfl, rfl⟩

/-- C4 (amended): the vertical pass snapshots, before propagating, the names
of exactly those segments whose `baseaddr` key is present (for *any* block
type, not only `CLB_IO_CLK`); a segment with no base address at all before
the pass is never used as a source; sources are processed in ascending
lexicographic name order and each source's entries in ascending block-type
order; entry values are read at processing time. -/
theorem up_INT_source_snapshot :
    (∀ (st : St) (n : String), n ∈ upSources st ↔
      ∃ sg, (n, sg) ∈ st.segments ∧ sg.baseaddr.isSome) ∧
    (∀ st : St, List.Sorted StrLe (sortStrings (upSources st))) ∧
    (∀ bas : BaseAddrs, List.Sorted StrLe ((sortByKey bas).map (fun e => e.1))) ∧
    (∀ (tbg : Int → Int → Option String) (st : St),
      seg_base_addr_up_INT tbg st =
        (sortStrings (upSources st)).foldlM (up_source tbg) st) := by
  refine ⟨?_, ?_, ?_, fun _ _ => rfl⟩
  · intro st n
    simp only [upSources, List.mem_map, List.mem_filter]
    constructor
    · rintro ⟨p, ⟨hmem, hsome⟩, rfl⟩
      exact ⟨p.2, hmem, hsome⟩
    · rintro ⟨sg, hmem, hsome⟩
      exact ⟨(n, sg), ⟨hmem, hsome⟩, rfl⟩
  · intro st
    exact List.sorted_insertionSort StrLe (upSources st)
  · intro bas
    exact List.Pairwise.map _ (fun a b h => h) (List.sorted_insertionSort KeyLe bas)

/-- Witness for the amended C4: on the concrete state, `SA` (holding a base
address) is in the snapshot, and the processing order is sorted. -/
theorem up_INT_source_snapshot_witness :
    "SA" ∈ upSources c4St ∧ List.Sorted StrLe (sortStrings (upSources c4St)) :=
  ⟨(up_INT_source_snapshot.1 c4St "SA").mpr
    ⟨{ tiles := ["cSA", "VA"], segtype := "clbll_l", frames := 36, words := 2,
       baseaddr := some [("CLB_IO_CLK", (256, 0))] }, by decide, rfl⟩,
   up_INT_source_snapshot.2.1 c4St⟩

/-! ### C7: CLB and HCLK segment construction -/

/-- C7: a CLB-family tile yields exactly one new segment `SEG_<tile>` holding
the tile and the interconnect tile at `x+1` (left variant) or `x-1`
(otherwise), `frames=36, words=2`, seeded with the tile's measured address
when one exists; an HCLK-family tile yields one segment holding only the
tile, `frames=26, words=1`, never seeded. -/
theorem make_segments_clb_hclk :
    (∀ (tbg : Int → Int → Option String) (tba : String → Option BaseAddrs) (st : St)
      (tile_name tile_type : String) (gx gy : Int) (st' : St),
      (nolr tile_type = "CLBLL" ∨ nolr tile_type = "CLBLM") →
      process_tile tbg tba st tile_name tile_type gx gy = some st' →
      ∃ (dx : Int) (int_tile_name : String),
        ((tile_type = "CLBLL_L" ∨ tile_type = "CLBLM_L") ∧ dx = 1 ∨
         ¬ (tile_type = "CLBLL_L" ∨ tile_type = "CLBLM_L") ∧ dx = -1) ∧
        tbg (gx + dx) gy = some int_tile_name ∧
        st'.segments = st.segments ++
          [("SEG_" ++ tile_name,
            { tiles := [tile_name, int_tile_name], segtype := pyLower tile_type,
              frames := 36, words := 2, baseaddr := truthy (tba tile_name) })]) ∧
    (∀ (tbg : Int → Int → Option String) (tba : String → Option BaseAddrs) (st : St)
      (tile_name tile_type : String) (gx gy : Int) (st' : St),
      nolr tile_type = "HCLK" →
      process_tile tbg tba st tile_name tile_type gx gy = some st' →
      st'.segments = st.segments ++
        [("SEG_" ++ tile_name,
          { tiles := [tile_name], segtype := pyLower tile_type,
            frames := 26, words := 1, baseaddr := none })]) := by
  constructor
  · intro tbg tba st tile_name tile_type gx gy st' hno h
    unfold process_tile at h
    rw [if_pos hno] at h
    unfold process_clb at h
    by_cases hL : tile_type = "CLBLL_L" ∨ tile_type = "CLBLM_L"
    · rw [if_pos hL] at h
      cases htbg : tbg (gx + 1) gy with
      | none => rw [htbg] at h; simp at h
      | some itn =>
        rw [htbg] at h
        simp only [] at h
        obtain ⟨-, hsegs, -, -⟩ := add_segment_spec h
        exact ⟨1, itn, Or.inl ⟨hL, rfl⟩, htbg, hsegs⟩
    · rw [if_neg hL] at h
      cases htbg : tbg (gx - 1) gy with
      | none => rw [htbg] at h; simp at h
      | some itn =>
        rw [htbg] at h
        simp only [] at h
        obtain ⟨-, hsegs, -, -⟩ := add_segment_spec h
        exact ⟨-1, itn, Or.inr ⟨hL, rfl⟩, htbg, hsegs⟩
  · intro tbg tba st tile_name tile_type gx gy st' hh h
    unfold process_tile at h
    rw [if_neg (by simp [hh]), if_pos hh] at h
    unfold process_hclk at h
    obtain ⟨-, hsegs, -, -⟩ := add_segment_spec h
    exact hsegs

/-- Concrete three-tile grid for the C7 witness. -/
def c7Db : List (String × TileRec) :=
  [("A", { ttype := "CLBLL_L", gridX := 0, gridY := 0 }),
   ("I", { ttype := "INT_L", gridX := 1, gridY := 0 }),
   ("H", { ttype := "HCLK_L", gridX := 0, gridY := 5 })]

def c7Tbg : Int → Int → Option String := make_tiles_by_grid c7Db

def c7St0 : St := { database := c7Db, segments := [] }

def c7StA : St := (process_tile c7Tbg (fun _ => none) c7St0 "A" "CLBLL_L" 0 0).getD c7St0

def c7StH : St := (process_tile c7Tbg (fun _ => none) c7St0 "H" "HCLK_L" 0 5).getD c7St0

/-- Witness for C7 on the concrete grid. -/
theorem make_segments_clb_hclk_witness :
    (∃ (dx : Int) (int_tile_name : String),
      (("CLBLL_L" = "CLBLL_L" ∨ "CLBLL_L" = "CLBLM_L") ∧ dx = 1 ∨
       ¬ ("CLBLL_L" = "CLBLL_L" ∨ "CLBLL_L" = "CLBLM_L") ∧ dx = -1) ∧
      c7Tbg (0 + dx) 0 = some int_tile_name ∧
      c7StA.segments = c7St0.segments ++
        [("SEG_" ++ "A",
          { tiles := ["A", int_tile_name], segtype := pyLower "CLBLL_L",
            frames := 36, words := 2, baseaddr := truthy ((fun _ => none) "A") })]) ∧
    c7StH.segments = c7St0.segments ++
      [("SEG_" ++ "H",
        { tiles := ["H"], segtype := pyLower "HCLK_L",
          frames := 26, words := 1, baseaddr := none })] :=
  ⟨make_segments_clb_hclk.1 c7Tbg (fun _ => none) c7St0 "A" "CLBLL_L" 0 0 c7StA
     (Or.inl rfl) (by rfl),
   make_segments_clb_hclk.2 c7Tbg (fun _ => none) c7St0 "H" "HCLK_L" 0 5 c7StH
     rfl (by rfl)⟩

/-! ### C6: BRAM/DSP segment construction -/

/-- The segment entry created by the `k`-th iteration of `process_bram_dsp`
for the given interface and interconnect tile names. -/
def bram_entry (tile_name tile_type : String) (tba : String → Option BaseAddrs)
    (k : Nat) (itf intc : String) : String × Segment :=
  ("SEG_" ++ replace_first_underscore tile_name (toString k ++ "_"),
   { tiles := if k = 0 then [tile_name, itf, intc] else [itf, intc],
     segtype := replace_first_underscore (pyLower tile_type) (toString k ++ "_"),
     frames := 28, words := 2,
     baseaddr := truthy (if k = 0 then tba tile_name else none) })

theorem bram_dsp_step_spec_L {tbg : Int → Int → Option String}
    {tba : String → Option BaseAddrs} {tile_name tile_type : String} {gx gy : Int}
    {st : St} {k : Nat} {st' : St}
    (hL : tile_type = "BRAM_L" ∨ tile_type = "DSP_L")
    (h : bram_dsp_step tbg tba tile_name tile_type gx gy st k = some st') :
    ∃ itf intc, tbg (gx + 1) (gy - k) = some itf ∧ tbg (gx + 2) (gy - k) = some intc ∧
      st'.segments = st.segments ++ [bram_entry tile_name tile_type tba k itf intc] := by
  unfold bram_dsp_step at h
  rw [if_pos hL] at h
  cases hi : tbg (gx + 1) (gy - k) with
  | none => rw [hi] at h; simp at h
  | some itf =>
    rw [hi] at h
    cases hj : tbg (gx + 2) (gy - k) with
    | none => rw [hj] at h; simp at h
    | some intc =>
      rw [hj] at h
      simp only [] at h
      obtain ⟨-, hsegs, -, -⟩ := add_segment_spec h
      exact ⟨itf, intc, rfl, rfl, hsegs⟩

theorem bram_dsp_step_spec_R {tbg : Int → Int → Option String}
    {tba : String → Option BaseAddrs} {tile_name tile_type : String} {gx gy : Int}
    {st : St} {k : Nat} {st' : St}
    (hL : ¬ (tile_type = "BRAM_L" ∨ tile_type = "DSP_L"))
    (hR : tile_type = "BRAM_R" ∨ tile_type = "DSP_R")
    (h : bram_dsp_step tbg tba tile_name tile_type gx gy st k = some st') :
    ∃ itf intc, tbg (gx - 1) (gy - k) = some itf ∧ tbg (gx - 2) (gy - k) = some intc ∧
      st'.segments = st.segments ++ [bram_entry tile_name tile_type tba k itf intc] := by
  unfold bram_dsp_step at h
  rw [if_neg hL, if_pos hR] at h
  cases hi : tbg (gx - 1) (gy - k) with
  | none => rw [hi] at h; simp at h
  | some itf =>
    rw [hi] at h
    cases hj : tbg (gx - 2) (gy - k) with
    | none => rw [hj] at h; simp at h
    | some intc =>
      rw [hj] at h
      simp only [] at h
      obtain ⟨-, hsegs, -, -⟩ := add_segment_spec h
      exact ⟨itf, intc, rfl, rfl, hsegs⟩

theorem bram_dsp_step_none {tbg : Int → Int → Option String}
    {tba : String → Option BaseAddrs} {tile_name tile_type : String} {gx gy : Int}
    {st : St} {k : Nat}
    (hL : ¬ (tile_type = "BRAM_L" ∨ tile_type = "DSP_L"))
    (hR : ¬ (tile_type = "BRAM_R" ∨ tile_type = "DSP_R")) :
    bram_dsp_step tbg tba tile_name tile_type gx gy st k = none := by
  unfold bram_dsp_step
  rw [if_neg hL, if_neg hR]

/-- C6: a successful `process_bram_dsp` run creates exactly five segments,
`k = 0..4`, appended in order; segment `k` has `frames=28, words=2`, interface
and interconnect tiles at `(x±1, y−k)` and `(x±2, y−k)` with the sign fixed by
the `_L`/`_R` variant, contains the anchor tile and its measured seed only
for `k = 0`, and splices `k` into the first underscore-delimited token of the
anchor's name and type. -/
theorem process_bram_dsp_segments {tbg : Int → Int → Option String}
    {tba : String → Option BaseAddrs} {st : St} {tile_name tile_type : String}
    {gx gy : Int} {st' : St}
    (h : process_bram_dsp tbg tba st tile_name tile_type gx gy = some st') :
    ∃ i0 j0 i1 j1 i2 j2 i3 j3 i4 j4 : String,
      st'.segments = st.segments ++
        [bram_entry tile_name tile_type tba 0 i0 j0,
         bram_entry tile_name tile_type tba 1 i1 j1,
         bram_entry tile_name tile_type tba 2 i2 j2,
         bram_entry tile_name tile_type tba 3 i3 j3,
         bram_entry tile_name tile_type tba 4 i4 j4] ∧
      (((tile_type = "BRAM_L" ∨ tile_type = "DSP_L") ∧
        tbg (gx + 1) gy = some i0 ∧ tbg (gx + 2) gy = some j0 ∧
        tbg (gx + 1) (gy - 1) = some i1 ∧ tbg (gx + 2) (gy - 1) = some j1 ∧
        tbg (gx + 1) (gy - 2) = some i2 ∧ tbg (gx + 2) (gy - 2) = some j2 ∧
        tbg (gx + 1) (gy - 3) = some i3 ∧ tbg (gx + 2) (gy - 3) = some j3 ∧
        tbg (gx + 1) (gy - 4) = some i4 ∧ tbg (gx + 2) (gy - 4) = some j4) ∨
       ((tile_type = "BRAM_R" ∨ tile_type = "DSP_R") ∧
        tbg (gx - 1) gy = some i0 ∧ tbg (gx - 2) gy = some j0 ∧
        tbg (gx - 1) (gy - 1) = some i1 ∧ tbg (gx - 2) (gy - 1) = some j1 ∧
        tbg (gx - 1) (gy - 2) = some i2 ∧ tbg (gx - 2) (gy - 2) = some j2 ∧
        tbg (gx - 1) (gy - 3) = some i3 ∧ tbg (gx - 2) (gy - 3) = some j3 ∧
        tbg (gx - 1) (gy - 4) = some i4 ∧ tbg (gx - 2) (gy - 4) = some j4)) := by
  unfold process_bram_dsp at h
  rw [show List.range 5 = [0, 1, 2, 3, 4] by rfl] at h
  simp only [List.foldlM_cons, List.foldlM_nil] at h
  obtain ⟨s1, h0, h⟩ := Option.bind_eq_some.mp h
  obtain ⟨s2, h1, h⟩ := Option.bind_eq_some.mp h
  obtain ⟨s3, h2, h⟩ := Option.bind_eq_some.mp h
  obtain ⟨s4, h3, h⟩ := Option.bind_eq_some.mp h
  obtain ⟨s5, h4, h⟩ := Option.bind_eq_some.mp h
  have hst' : s5 = st' := by simpa using h
  subst hst'
  by_cases hL : tile_type = "BRAM_L" ∨ tile_type = "DSP_L"
  · obtain ⟨i0, j0, hi0, hj0, hs0⟩ := bram_dsp_step_spec_L hL h0
    obtain ⟨i1, j1, hi1, hj1, hs1⟩ := bram_dsp_step_spec_L hL h1
    obtain ⟨i2, j2, hi2, hj2, hs2⟩ := bram_dsp_step_spec_L hL h2
    obtain ⟨i3, j3, hi3, hj3, hs3⟩ := bram_dsp_step_spec_L hL h3
    obtain ⟨i4, j4, hi4, hj4, hs4⟩ := bram_dsp_step_spec_L hL h4
    refine ⟨i0, j0, i1, j1, i2, j2, i3, j3, i4, j4, ?_, Or.inl
      ⟨hL, by simpa using hi0, by simpa using hj0, by simpa using hi1, by simpa using hj1,
       by simpa using hi2, by simpa using hj2, by simpa using hi3, by simpa using hj3,
       by simpa using hi4, by simpa using hj4⟩⟩
    rw [hs4, hs3, hs2, hs1, hs0]
    simp [List.append_assoc]
  · by_cases hR : tile_type = "BRAM_R" ∨ tile_type = "DSP_R"
    · obtain ⟨i0, j0, hi0, hj0, hs0⟩ := bram_dsp_step_spec_R hL hR h0
      obtain ⟨i1, j1, hi1, hj1, hs1⟩ := bram_dsp_step_spec_R hL hR h1
      obtain ⟨i2, j2, hi2, hj2, hs2⟩ := bram_dsp_step_spec_R hL hR h2
      obtain ⟨i3, j3, hi3, hj3, hs3⟩ := bram_dsp_step_spec_R hL hR h3
      obtain ⟨i4, j4, hi4, hj4, hs4⟩ := bram_dsp_step_spec_R hL hR h4
      refine ⟨i0, j0, i1, j1, i2, j2, i3, j3, i4, j4, ?_, Or.inr
        ⟨hR, by simpa using hi0, by simpa using hj0, by simpa using hi1, by simpa using hj1,
         by simpa using hi2, by simpa using hj2, by simpa using hi3, by simpa using hj3,
         by simpa using hi4, by simpa using hj4⟩⟩
      rw [hs4, hs3, hs2, hs1, hs0]
      simp [List.append_assoc]
    · rw [bram_dsp_step_none hL hR] at h0
      simp at h0

/-- Concrete BRAM column for the C6 witness: the anchor and its five
interface/interconnect tile pairs. -/
def c6Db : List (String × TileRec) :=
  [("BRAM_L_X6Y70", { ttype := "BRAM_L", gridX := 6, gridY := 70 })] ++
  (List.range 5).map (fun k =>
    ("bi" ++ toString k, { ttype := "BRAM_INT_INTERFACE_L", gridX := 7, gridY := (70 - k : Int) })) ++
  (List.range 5).map (fun k =>
    ("bn" ++ toString k, { ttype := "INT_L", gridX := 8, gridY := (70 - k : Int) }))

def c6Tbg : Int → Int → Option String := make_tiles_by_grid c6Db

def c6St0 : St := { database := c6Db, segments := [] }

def c6Tba : String → Option BaseAddrs :=
  fun n => if n = "BRAM_L_X6Y70" then some [("BLOCK_RAM", (0x00C00000, 0))] else none

def c6Res : St :=
  (process_bram_dsp c6Tbg c6Tba c6St0 "BRAM_L_X6Y70" "BRAM_L" 6 70).getD c6St0

/-- Witness for C6 on the concrete BRAM column. -/
theorem process_bram_dsp_segments_witness :
    ∃ i0 j0 i1 j1 i2 j2 i3 j3 i4 j4 : String,
      c6Res.segments = c6St0.segments ++
        [bram_entry "BRAM_L_X6Y70" "BRAM_L" c6Tba 0 i0 j0,
         bram_entry "BRAM_L_X6Y70" "BRAM_L" c6Tba 1 i1 j1,
         bram_entry "BRAM_L_X6Y70" "BRAM_L" c6Tba 2 i2 j2,
         bram_entry "BRAM_L_X6Y70" "BRAM_L" c6Tba 3 i3 j3,
         bram_entry "BRAM_L_X6Y70" "BRAM_L" c6Tba 4 i4 j4] ∧
      ((("BRAM_L" = "BRAM_L" ∨ "BRAM_L" = "DSP_L") ∧
        c6Tbg (6 + 1) 70 = some i0 ∧ c6Tbg (6 + 2) 70 = some j0 ∧
        c6Tbg (6 + 1) (70 - 1) = some i1 ∧ c6Tbg (6 + 2) (70 - 1) = some j1 ∧
        c6Tbg (6 + 1) (70 - 2) = some i2 ∧ c6Tbg (6 + 2) (70 - 2) = some j2 ∧
        c6Tbg (6 + 1) (70 - 3) = some i3 ∧ c6Tbg (6 + 2) (70 - 3) = some j3 ∧
        c6Tbg (6 + 1) (70 - 4) = some i4 ∧ c6Tbg (6 + 2) (70 - 4) = some j4) ∨
       (("BRAM_L" = "BRAM_R" ∨ "BRAM_L" = "DSP_R") ∧
        c6Tbg (6 - 1) 70 = some i0 ∧ c6Tbg (6 - 2) 70 = some j0 ∧
        c6Tbg (6 - 1) (70 - 1) = some i1 ∧ c6Tbg (6 - 2) (70 - 1) = some j1 ∧
        c6Tbg (6 - 1) (70 - 2) = some i2 ∧ c6Tbg (6 - 2) (70 - 2) = some j2 ∧
        c6Tbg (6 - 1) (70 - 3) = some i3 ∧ c6Tbg (6 - 2) (70 - 3) = some j3 ∧
        c6Tbg (6 - 1) (70 - 4) = some i4 ∧ c6Tbg (6 - 2) (70 - 4) = some j4)) :=
  process_bram_dsp_segments (by rfl)

/-! ### C8: bit annotation -/

theorem foldlM_none {α β : Type} (f : β → α → Option β) (l : List α) (x : α)
    (hx : x ∈ l) (hf : ∀ acc, f acc x = none) : ∀ b, l.foldlM f b = none := by
  induction l with
  | nil => simp at hx
  | cons a t ih =>
    intro b
    rcases List.mem_cons.mp hx with rfl | hmem
    · simp [List.foldlM_cons, hf b]
    · rw [List.foldlM_cons]
      cases hfa : f b a with
      | none => simp
      | some b' => simp [ih hmem b']

/-- C8 (amended): `add_bits` requires every segment to carry a `baseaddr`
key — a segment with none aborts the pass (`KeyError`) rather than being
skipped; for processed segments the per-family heights are CLB 2,
interconnect 2, HCLK 1, BRAM/DSP 10, interface families 0; an unrecognized
family aborts; a zero-height tile is left untouched; a nonzero-height tile
receives a `bits` entry keyed by the re-classified block type; a tile already
holding an entry for that block type aborts. -/
theorem add_bits_spec :
    (tile_height "CLBLL_L" = some 2 ∧ tile_height "CLBLM_R" = some 2 ∧
     tile_height "INT_L" = some 2 ∧ tile_height "INT_R" = some 2 ∧
     tile_height "HCLK_L" = some 1 ∧ tile_height "BRAM_L" = some 10 ∧
     tile_height "DSP_R" = some 10 ∧ tile_height "INT_INTERFACE_L" = some 0 ∧
     tile_height "BRAM_INT_INTERFACE_R" = some 0 ∧ tile_height "VBRK" = none) ∧
    (∀ (db : List (String × TileRec)) (tile_name : String) (b o : Int) (r : TileRec),
      alookup db tile_name = some r → tile_height r.ttype = none →
      add_bits_tile db tile_name b o = none) ∧
    (∀ (db : List (String × TileRec)) (tile_name : String) (b o : Int) (r : TileRec),
      alookup db tile_name = some r → tile_height r.ttype = some 0 →
      add_bits_tile db tile_name b o = some db) ∧
    (∀ (db : List (String × TileRec)) (tile_name : String) (b o : Int) (r : TileRec)
      (h : Nat) (bt : String),
      alookup db tile_name = some r → tile_height r.ttype = some h → h ≠ 0 →
      addr2btype b = some bt → alookup r.bits bt = none →
      add_bits_tile db tile_name b o =
        some (aset db tile_name { r with bits := r.bits ++
          [(bt, { baseaddr := hex8 b, offset := o, height := h })] })) ∧
    (∀ (db : List (String × TileRec)) (tile_name : String) (b o : Int) (r : TileRec)
      (h : Nat) (bt : String) (e : BitsRec),
      alookup db tile_name = some r → tile_height r.ttype = some h → h ≠ 0 →
      addr2btype b = some bt → alookup r.bits bt = some e →
      add_bits_tile db tile_name b o = none) ∧
    (∀ (st : St) (n : String) (sg : Segment),
      (n, sg) ∈ st.segments → sg.baseaddr = none → add_bits st = none) := by
  refine ⟨⟨rfl, rfl, rfl, rfl, rfl, rfl, rfl, rfl, rfl, rfl⟩, ?_, ?_, ?_, ?_, ?_⟩
  · intro db tile_name b o r hr hh
    unfold add_bits_tile
    rw [hr]
    simp only []
    rw [hh]
  · intro db tile_name b o r hr hh
    unfold add_bits_tile
    rw [hr]
    simp only []
    rw [hh]
    rfl
  · intro db tile_name b o r h bt hr hh hh0 hbt hbits
    unfold add_bits_tile
    rw [hr]
    simp only []
    rw [hh]
    simp only []
    rw [if_neg hh0]
    unfold add_tile_bits
    rw [hbt]
    simp only []
    rw [hbits]
    simp
  · intro db tile_name b o r h bt e hr hh hh0 hbt hbits
    unfold add_bits_tile
    rw [hr]
    simp only []
    rw [hh]
    simp only []
    rw [if_neg hh0]
    unfold add_tile_bits
    rw [hbt]
    simp only []
    rw [hbits]
    simp
  · intro st n sg hmem hnone
    unfold add_bits
    rw [foldlM_none _ _ (n, sg) hmem (fun acc => by rw [hnone]) st.database]

/-- A segment whose `baseaddr` key is absent, as every never-propagated-to
HCLK segment is before the propagation passes reach it. -/
def c8St : St :=
  { database := [("H", { ttype := "HCLK_L", gridX := 0, gridY := 0, segment := some "SEG_H" })],
    segments := [("SEG_H", { tiles := ["H"], segtype := "hclk_l", frames := 26, words := 1,
                             baseaddr := none })] }

/-- Counterexample for C8: a segment with no base address makes `add_bits`
fail (`KeyError` on `segments[name]["baseaddr"]`) instead of contributing
nothing without error. -/
theorem add_bits_no_baseaddr_counterexample :
    alookup c8St.segments "SEG_H" =
      some { tiles := ["H"], segtype := "hclk_l", frames := 26, words := 1, baseaddr := none } ∧
    add_bits c8St = none :=
  ⟨rfl, rfl⟩

def c8DbV : List (String × TileRec) := [("x", { ttype := "VBRK", gridX := 0, gridY := 0 })]

def c8DbI : List (String × TileRec) :=
  [("y", { ttype := "INT_INTERFACE_L", gridX := 0, gridY := 0 })]

def c8RecH : TileRec := { ttype := "HCLK_L", gridX := 0, gridY := 0 }

def c8DbH : List (String × TileRec) := [("z", c8RecH)]

def c8RecDup : TileRec :=
  { ttype := "HCLK_L", gridX := 0, gridY := 0,
    bits := [("CLB_IO_CLK", { baseaddr := "0x00000000", offset := 0, height := 1 })] }

def c8DbDup : List (String × TileRec) := [("z", c8RecDup)]

/-- Witness for the amended C8 on concrete tiles of each kind. -/
theorem add_bits_spec_witness :
    add_bits_tile c8DbV "x" 0 0 = none ∧
    add_bits_tile c8DbI "y" 0 0 = some c8DbI ∧
    add_bits_tile c8DbH "z" 0x00400000 3 =
      some (aset c8DbH "z" { c8RecH with bits := c8RecH.bits ++
        [("CLB_IO_CLK", { baseaddr := hex8 0x00400000, offset := 3, height := 1 })] }) ∧
    add_bits_tile c8DbDup "z" 0x00400000 3 = none ∧
    add_bits c8St = none :=
  ⟨add_bits_spec.2.1 c8DbV "x" 0 0 _ rfl rfl,
   add_bits_spec.2.2.1 c8DbI "y" 0 0 _ rfl rfl,
   add_bits_spec.2.2.2.1 c8DbH "z" 0x00400000 3 c8RecH 1 "CLB_IO_CLK"
     rfl rfl (by decide) rfl rfl,
   add_bits_spec.2.2.2.2.1 c8DbDup "z" 0x00400000 3 c8RecDup 1 "CLB_IO_CLK"
     { baseaddr := "0x00000000", offset := 0, height := 1 } rfl rfl (by decide) rfl rfl,
   add_bits_spec.2.2.2.2.2 c8St "SEG_H"
     { tiles := ["H"], segtype := "hclk_l", frames := 26, words := 1, baseaddr := none }
     (by simp [c8St]) rfl⟩

/-! ### C9: tile-to-segment ownership round-trip -/

/-- One `add_segment` call (all segment/database mutation in `make_segments`
goes through it). -/
def AddStep (s s' : St) : Prop :=
  ∃ name tiles segtype frames words baseaddr,
    add_segment s name tiles segtype frames words baseaddr = some s'

/-- The ownership invariant maintained during construction: every tile listed
in a segment is in the database and owned either by that segment or by some
*other* segment that also lists it. -/
def RoundInv (s : St) : Prop :=
  ∀ n sg, (n, sg) ∈ s.segments → ∀ t, t ∈ sg.tiles →
    ∃ r, alookup s.database t = some r ∧
      (r.segment = some n ∨
       ∃ n' sg', (n', sg') ∈ s.segments ∧ n' ≠ n ∧ t ∈ sg'.tiles ∧ r.segment = some n')

theorem roundInv_addStep {s s' : St} (hstep : AddStep s s') (hinv : RoundInv s) :
    RoundInv s' := by
  obtain ⟨name, tiles, segtype, frames, words, baseaddr, h⟩ := hstep
  obtain ⟨hfresh, hsegs, hset, hunch⟩ := add_segment_spec h
  intro n sg hmem t ht
  rw [hsegs] at hmem
  rcases List.mem_append.mp hmem with hmemA | hmemB
  · have hne : n ≠ name := by
      intro he
      exact not_mem_of_alookup_none hfresh sg (he ▸ hmemA)
    by_cases htl : t ∈ tiles
    · obtain ⟨r', hr', hrs'⟩ := hset t htl
      refine ⟨r', hr', Or.inr ⟨name,
        { tiles := tiles, segtype := segtype, frames := frames, words := words,
          baseaddr := truthy baseaddr }, ?_, Ne.symm hne, htl, hrs'⟩⟩
      rw [hsegs]
      simp
    · obtain ⟨r, hrold, hcase⟩ := hinv n sg hmemA t ht
      refine ⟨r, by rw [hunch t htl]; exact hrold, ?_⟩
      rcases hcase with hc | ⟨n', sg', hmem', hne', ht', hr'⟩
      · exact Or.inl hc
      · exact Or.inr ⟨n', sg', by rw [hsegs]; exact List.mem_append_left _ hmem',
          hne', ht', hr'⟩
  · simp at hmemB
    obtain ⟨hn, hsg⟩ := hmemB
    subst hn
    rw [hsg] at ht
    obtain ⟨r', hr', hrs'⟩ := hset t ht
    exact ⟨r', hr', Or.inl hrs'⟩

theorem roundInv_addSteps {s s' : St} (h : Relation.ReflTransGen AddStep s s')
    (hinv : RoundInv s) : RoundInv s' := by
  induction h with
  | refl => exact hinv
  | tail _ hstep ih => exact roundInv_addStep hstep ih

theorem foldlM_addSteps {α : Type} (f : St → α → Option St)
    (hf : ∀ s a s', f s a = some s' → Relation.ReflTransGen AddStep s s') :
    ∀ (l : List α) (s s' : St), l.foldlM f s = some s' →
      Relation.ReflTransGen AddStep s s' := by
  intro l
  induction l with
  | nil =>
    intro s s' h
    simp [List.foldlM_nil] at h
    subst h
    exact Relation.ReflTransGen.refl
  | cons a t ih =>
    intro s s' h
    rw [List.foldlM_cons] at h
    obtain ⟨s1, h1, h2⟩ := Option.bind_eq_some.mp h
    exact Relation.ReflTransGen.trans (hf s a s1 h1) (ih s1 s' h2)

theorem bram_dsp_step_addStep {tbg : Int → Int → Option String}
    {tba : String → Option BaseAddrs} {tile_name tile_type : String} {gx gy : Int}
    {st : St} {k : Nat} {st' : St}
    (h : bram_dsp_step tbg tba tile_name tile_type gx gy st k = some st') :
    AddStep st st' := by
  unfold bram_dsp_step at h
  split at h
  · simp at h
  · simp at h
  · exact ⟨_, _, _, _, _, _, h⟩

theorem process_tile_addSteps {tbg : Int → Int → Option String}
    {tba : String → Option BaseAddrs} {st : St} {tile_name tile_type : String}
    {gx gy : Int} {st' : St}
    (h : process_tile tbg tba st tile_name tile_type gx gy = some st') :
    Relation.ReflTransGen AddStep st st' := by
  unfold process_tile at h
  split_ifs at h with h1 h2 h3
  · unfold process_clb at h
    split at h
    · simp at h
    · exact Relation.ReflTransGen.single ⟨_, _, _, _, _, _, h⟩
  · unfold process_hclk at h
    exact Relation.ReflTransGen.single ⟨_, _, _, _, _, _, h⟩
  · exact foldlM_addSteps _ (fun s a s' hs => Relation.ReflTransGen.single
      (bram_dsp_step_addStep hs)) (List.range 5) st st' h
  · rw [Option.some.injEq] at h
    subst h
    exact Relation.ReflTransGen.refl

/-- Pairwise disjointness of the tile lists of distinct segments. -/
def TilesDisjoint (s : St) : Prop :=
  ∀ n1 sg1 n2 sg2, (n1, sg1) ∈ s.segments → (n2, sg2) ∈ s.segments → n1 ≠ n2 →
    ∀ t, t ∈ sg1.tiles → t ∉ sg2.tiles

/-- C9 (amended): after a successful construction whose created segments have
pairwise disjoint tile lists, every tile listed by a segment records that
segment as its owner. Without disjointness the construction still succeeds
but the later segment overwrites the owner field (see the counterexample). -/
theorem make_segments_owner_roundtrip {tbg : Int → Int → Option String}
    {tba : String → Option BaseAddrs} {db0 : List (String × TileRec)} {st' : St}
    (h : make_segments tbg tba db0 = some st') (hdisj : TilesDisjoint st') :
    ∀ n sg, (n, sg) ∈ st'.segments → ∀ t, t ∈ sg.tiles →
      ∃ r, alookup st'.database t = some r ∧ r.segment = some n := by
  have hsteps : Relation.ReflTransGen AddStep { database := db0, segments := [] } st' := by
    unfold make_segments at h
    exact foldlM_addSteps _ (fun s p s' hs => process_tile_addSteps hs) db0 _ st' h
  have hinv : RoundInv st' := by
    refine roundInv_addSteps hsteps ?_
    intro n sg hmem
    simp at hmem
  intro n sg hmem t ht
  obtain ⟨r, hr, hcase⟩ := hinv n sg hmem t ht
  rcases hcase with hc | ⟨n', sg', hmem', hne, ht', hr'⟩
  · exact ⟨r, hr, hc⟩
  · exact absurd ht' (hdisj n sg n' sg' hmem hmem' (Ne.symm hne) t ht)

/-- Two CLB tiles flanking one interconnect tile: both created segments list
`I`, which the construction accepts without error. -/
def c9Db : List (String × TileRec) :=
  [("A", { ttype := "CLBLL_L", gridX := 0, gridY := 0 }),
   ("B", { ttype := "CLBLL_R", gridX := 2, gridY := 0 }),
   ("I", { ttype := "INT_L", gridX := 1, gridY := 0 })]

def c9Res : St :=
  (make_segments (make_tiles_by_grid c9Db) (fun _ => none) c9Db).getD
    { database := c9Db, segments := [] }

/-- Counterexample for C9: construction succeeds, `SEG_A` lists tile `I`, yet
`I`'s recorded owner is `SEG_B` — the later segment silently overwrote it. -/
theorem make_segments_overlap_counterexample :
    make_segments (make_tiles_by_grid c9Db) (fun _ => none) c9Db = some c9Res ∧
    (∃ sg, alookup c9Res.segments "SEG_A" = some sg ∧ "I" ∈ sg.tiles) ∧
    (∃ r, alookup c9Res.database "I" = some r ∧ r.segment = some "SEG_B") ∧
    "SEG_B" ≠ "SEG_A" :=
  ⟨rfl,
   ⟨{ tiles := ["A", "I"], segtype := "clbll_l", frames := 36, words := 2,
      baseaddr := none }, rfl, by decide⟩,
   ⟨{ ttype := "INT_L", gridX := 1, gridY := 0, segment := some "SEG_B" }, rfl, rfl⟩,
   by decide⟩

def c9wDb : List (String × TileRec) :=
  [("A", { ttype := "CLBLL_L", gridX := 0, gridY := 0 }),
   ("I", { ttype := "INT_L", gridX := 1, gridY := 0 })]

def c9wSeg : Segment :=
  { tiles := ["A", "I"], segtype := "clbll_l", frames := 36, words := 2, baseaddr := none }

def c9wRes : St :=
  (make_segments (make_tiles_by_grid c9wDb) (fun _ => none) c9wDb).getD
    { database := c9wDb, segments := [] }

/-- Witness for the amended C9: on a disjoint two-tile grid the interconnect
tile's recorded owner is the segment that lists it. -/
theorem make_segments_owner_roundtrip_witness :
    ∃ r, alookup c9wRes.database "I" = some r ∧ r.segment = some "SEG_A" := by
  have hsegs : c9wRes.segments = [("SEG_A", c9wSeg)] := rfl
  have hdisj : TilesDisjoint c9wRes := by
    intro n1 sg1 n2 sg2 h1 h2 hne t ht
    rw [hsegs] at h1 h2
    simp at h1 h2
    exact absurd (h1.1.trans h2.1.symm) hne
  exact @make_segments_owner_roundtrip (make_tiles_by_grid c9wDb) (fun _ => none) c9wDb
    c9wRes (by rfl) hdisj "SEG_A" c9wSeg (by rw [hsegs]; simp) "I" (by decide)

end Prjxray
